import Mathlib

/-!
Shallow embedding of the clode-app client protocol engine
(src/hooks/useWebSocketServer.ts) and proofs about its behaviour.

The data model follows src/types.ts; the operational definitions follow the
hook body: the call dispatcher (pending table, timeouts, correlation ids),
the connection manager (connect / onopen / onclose with the current-socket
guard), the notification router (handleNotification) and the
presentation-facing session operations (sendMessage, approvePermission).
Optional TS fields become Option; truthiness of the optional boolean
isStreaming becomes a Bool defaulting to false.
-/

/-- Timeout for ordinary calls, from the source constant CALL_TIMEOUT_MS. -/
def CALL_TIMEOUT_MS : Nat := 30000

/-- Timeout armed for the initialize handshake, from INIT_TIMEOUT_MS. -/
def INIT_TIMEOUT_MS : Nat := 10000

inductive PermissionMode
  | default
  | acceptEdits
  | bypassPermissions
  | dontAsk
deriving DecidableEq, Repr

inductive ConnectionStatus
  | disconnected
  | connecting
  | connected
  | error
deriving DecidableEq, Repr

/-- The tagged item variant of src/types.ts (tool inputs kept abstract as strings). -/
inductive Item
  | text (text : String)
  | thinking (thinking : String)
  | tool_call (tool_use_id : String) (name : String) (input : String)
  | tool_result (tool_use_id : String) (content : String) (is_error : Bool)
deriving DecidableEq, Repr

/-- Whether the item variant is a text item (the check item.item.type === 'text'). -/
def Item.isText : Item → Bool
  | .text _ => true
  | _ => false

structure StoredItem where
  id : String
  created_at : Nat
  item : Item
deriving DecidableEq, Repr

inductive MessageRole
  | user
  | assistant
deriving DecidableEq, Repr

structure ChatMessage where
  id : String
  role : MessageRole
  content : String
  items : Option (List StoredItem) := none
  streamingText : Option String := none
  isStreaming : Bool := false
deriving DecidableEq, Repr

inductive TurnStatus
  | active
  | completed
  | interrupted
  | error
deriving DecidableEq, Repr

structure Turn where
  id : String
  thread_id : String
  status : TurnStatus
  user_content : String
  messages : List ChatMessage
deriving DecidableEq, Repr

structure PermissionDenial where
  tool_name : String
  tool_use_id : String
  tool_input : Option String := none
deriving DecidableEq, Repr

structure Session where
  thread_id : String
  created_at : Nat
  cwd : String
  permission_mode : PermissionMode
  turns : List Turn := []
  active_turn_id : Option String := none
  messages : List ChatMessage
  lastBlockedContent : Option String := none
  hasPermissionDenial : Bool := false
  permissionDenials : Option (List PermissionDenial) := none
deriving DecidableEq, Repr

/-- Server-pushed notification payloads routed by handleNotification. -/
inductive Notification
  | initialized
  | turnStarted (turn_id : String) (thread_id : String)
  | itemProgress (turn_id : String) (deltaType : String) (deltaText : Option String)
  | itemCreated (turn_id : String) (item : StoredItem)
  | permissionDenied (thread_id : String) (denials : List PermissionDenial)
  | turnCompleted (thread_id : String)
  | turnError (thread_id : String)
  | otherMethod (method : String)
deriving DecidableEq, Repr

/-- setSessions(prev => prev.map(s => s.thread_id === thread_id ? updater(s) : s)). -/
def updateSession (sessions : List Session) (thread_id : String) (f : Session → Session) :
    List Session :=
  sessions.map fun s => if s.thread_id = thread_id then f s else s

/-- sessionRef.current.find(s => s.active_turn_id === turn_id). -/
def findByTurn (turn_id : String) : List Session → Option Session
  | [] => none
  | s :: rest =>
    if s.active_turn_id = some turn_id then some s else findByTurn turn_id rest

/-- The id given to the streaming placeholder message for a turn. -/
def streamKey (turn_id : String) : String := "streaming-" ++ turn_id

/-- The stable id of the finalized per-turn assistant message. -/
def turnKey (turn_id : String) : String := "turn-" ++ turn_id

/-- The fresh streaming placeholder pushed by the item/progress handler. -/
def newStreamingMsg (turn_id : String) (text : String) : ChatMessage :=
  { id := streamKey turn_id, role := .assistant, content := "",
    items := some [], streamingText := some text, isStreaming := true }

/-- Body of the item/progress text-delta branch: replace the last message if it
is a streaming assistant message, otherwise push a new placeholder. -/
def applyProgress (turn_id : String) (text : String) (target : String)
    (sessions : List Session) : List Session :=
  sessions.map fun s =>
    if s.thread_id = target then
      match s.messages.getLast? with
      | some lastMsg =>
        if lastMsg.role = .assistant ∧ lastMsg.isStreaming = true then
          { s with messages := s.messages.dropLast ++
              [{ lastMsg with streamingText := some ((lastMsg.streamingText.getD "") ++ text) }] }
        else { s with messages := s.messages ++ [newStreamingMsg turn_id text] }
      | none => { s with messages := s.messages ++ [newStreamingMsg turn_id text] }
    else s

/-- filteredMsgs.find(m => m.role === 'assistant' && m.id === key). -/
def findAssistantByKey (key : String) : List ChatMessage → Option ChatMessage
  | [] => none
  | m :: rest =>
    if m.role = .assistant ∧ m.id = key then some m else findAssistantByKey key rest

/-- filteredMsgs.findIndex(m => m.id === key); returns the length when absent
(setting at that index is then the identity, matching the source where the
index is always in range). -/
def findIdxById (key : String) : List ChatMessage → Nat
  | [] => 0
  | m :: rest => if m.id = key then 0 else findIdxById key rest + 1

/-- Per-session body of the item/created branch: filter out streaming messages
when the created item is a text item, then append the item to the per-turn
assistant message keyed by turnKey, creating it on the first item. -/
def createdUpdate (turn_id : String) (item : StoredItem) (s : Session) : Session :=
  let filteredMsgs := s.messages.filter fun m => !(m.isStreaming && item.item.isText)
  match findAssistantByKey (turnKey turn_id) filteredMsgs with
  | none =>
    { s with messages := filteredMsgs ++
        [{ id := turnKey turn_id, role := .assistant, content := "",
           items := some [item], isStreaming := false }] }
  | some aMsg =>
    let updated : ChatMessage := { aMsg with items := some ((aMsg.items.getD []) ++ [item]) }
    { s with messages := filteredMsgs.set (findIdxById (turnKey turn_id) filteredMsgs) updated }

/-- The item/created setSessions update over the whole store. -/
def applyCreated (turn_id : String) (item : StoredItem) (target : String)
    (sessions : List Session) : List Session :=
  sessions.map fun s => if s.thread_id = target then createdUpdate turn_id item s else s

/-- s.messages.filter(m => m.role === 'user').pop()?.content. -/
def lastUserContent (msgs : List ChatMessage) : Option String :=
  ((msgs.filter fun m => m.role == MessageRole.user).getLast?).map fun m => m.content

/-- m.isStreaming ? { ...m, isStreaming: false, items: m.items ?? [] } : m. -/
def finalizeMsg (m : ChatMessage) : ChatMessage :=
  if m.isStreaming then { m with isStreaming := false, items := some (m.items.getD []) }
  else m

/-- The turn/completed and turn/error handler body. -/
def finishTurn (sessions : List Session) (thread_id : String) : List Session :=
  updateSession sessions thread_id fun s =>
    { s with active_turn_id := none, messages := s.messages.map finalizeMsg }

/-- handleNotification from the hook, routing by method name. -/
def handleNotification (sessions : List Session) (n : Notification) : List Session :=
  match n with
  | .initialized => sessions
  | .turnStarted turn_id thread_id =>
    updateSession sessions thread_id fun s => { s with active_turn_id := some turn_id }
  | .itemProgress turn_id deltaType deltaText =>
    match findByTurn turn_id sessions with
    | none => sessions
    | some session =>
      match deltaText with
      | some t =>
        if deltaType = "text" ∧ t ≠ "" then applyProgress turn_id t session.thread_id sessions
        else sessions
      | none => sessions
  | .itemCreated turn_id item =>
    match findByTurn turn_id sessions with
    | none => sessions
    | some session => applyCreated turn_id item session.thread_id sessions
  | .permissionDenied thread_id denials =>
    updateSession sessions thread_id fun s =>
      { s with hasPermissionDenial := true,
               permissionDenials := some denials,
               lastBlockedContent :=
                 match s.lastBlockedContent with
                 | some c => some c
                 | none => lastUserContent s.messages }
  | .turnCompleted thread_id => finishTurn sessions thread_id
  | .turnError thread_id => finishTurn sessions thread_id
  | .otherMethod _ => sessions

/-- Outcome of awaiting a dispatched call (resolution or rejection). -/
inductive CallOutcome
  | success
  | failure
deriving DecidableEq, Repr

/-- The optimistic user message appended by sendMessage (id user-Date.now()). -/
def userMsg (now : Nat) (content : String) : ChatMessage :=
  { id := "user-" ++ toString now, role := .user, content := content }

/-- The synchronous setSessions update performed by sendMessage before the
turn/start call is issued. -/
def sendMessageLocal (sessions : List Session) (thread_id : String) (content : String)
    (now : Nat) : List Session :=
  sessions.map fun s =>
    if s.thread_id = thread_id then
      { s with messages := s.messages ++ [userMsg now content],
               lastBlockedContent := some content,
               hasPermissionDenial := false,
               permissionDenials := none }
    else s

/-- sendMessage: optimistic local update, then the turn/start call; on failure
the exception propagates and the session store is left as the optimistic
update produced it. The Bool records whether the call resolved. -/
def sendMessage (sessions : List Session) (thread_id : String) (content : String)
    (now : Nat) (outcome : CallOutcome) : List Session × Bool :=
  let updated := sendMessageLocal sessions thread_id content now
  match outcome with
  | .success => (updated, true)
  | .failure => (updated, false)

/-- The session update applied by approvePermission. -/
def approveUpdate (mode : Option PermissionMode) (s : Session) : Session :=
  { s with permission_mode := mode.getD .acceptEdits,
           hasPermissionDenial := false,
           permissionDenials := none }

/-- approvePermission: the approval/respond call is wrapped in try/catch, so the
local update runs on either outcome. -/
def approvePermission (sessions : List Session) (thread_id : String)
    (mode : Option PermissionMode) (outcome : CallOutcome) : List Session :=
  match outcome with
  | .success => updateSession sessions thread_id (approveUpdate mode)
  | .failure => updateSession sessions thread_id (approveUpdate mode)

/-- WebSocket readyState values. -/
inductive ReadyState
  | connecting
  | opened
  | closing
  | closed
deriving DecidableEq, Repr

/-- One transport socket: its url and readyState. Sockets are identified by a
generation number so that stale-socket guards (wsRef.current === ws) can be
expressed. -/
structure Socket where
  url : String
  state : ReadyState
deriving DecidableEq, Repr

/-- Whether a pending entry was registered by call() or by the onopen
handshake (whose resolve/reject drive connection status instead of a
caller promise). -/
inductive PendKind
  | ordinary
  | handshake
deriving DecidableEq, Repr

/-- One record of the pending-call table. -/
structure PendingEntry where
  method : String
  startedAt : Nat
  kind : PendKind
deriving DecidableEq, Repr

/-- Association-list lookup by numeric key (Map.get). -/
def lookupA {α : Type} : List (Nat × α) → Nat → Option α
  | [], _ => none
  | (k2, v) :: rest, k => if k2 = k then some v else lookupA rest k

/-- Association-list removal by key (Map.delete). -/
def eraseKey {α : Type} (l : List (Nat × α)) (k : Nat) : List (Nat × α) :=
  l.filter fun p => p.1 != k

/-- Mark the socket of a generation with a new readyState. -/
def setSockState (l : List (Nat × Socket)) (g : Nat) (rs : ReadyState) :
    List (Nat × Socket) :=
  l.map fun p => if p.1 = g then (p.1, { p.2 with state := rs }) else p

/-- ws.close(): moves a connecting/open socket to closing. -/
def closeSocket (l : List (Nat × Socket)) (g : Nat) : List (Nat × Socket) :=
  l.map fun p =>
    if p.1 = g ∧ (p.2.state = ReadyState.connecting ∨ p.2.state = ReadyState.opened) then
      (p.1, { p.2 with state := ReadyState.closing })
    else p

/-- The whole client state of the hook: reactive fields, the socket reference,
the pending-call table and the id counter. -/
structure ClientState where
  url : String
  status : ConnectionStatus
  lastError : Option String
  sessions : List Session
  wsRef : Option Nat
  wsNextGen : Nat
  sockets : List (Nat × Socket)
  msgIdCounter : Nat
  pending : List (Nat × PendingEntry)
deriving DecidableEq, Repr

/-- rawSend succeeds iff wsRef is set and that socket's readyState is OPEN. -/
def transportOpen (st : ClientState) : Bool :=
  match st.wsRef with
  | none => false
  | some g =>
    match lookupA st.sockets g with
    | some sock => sock.state == ReadyState.opened
    | none => false

/-- How a call or the handshake settled. -/
inductive Settlement
  | resolved (id : Nat)
  | rejectedError (id : Nat)
  | rejectedTimeout (id : Nat)
  | rejectedClosed (id : Nat)
  | rejectedNotOpen (id : Nat)
deriving DecidableEq, Repr

/-- The correlation id a settlement is for. -/
def Settlement.idOf : Settlement → Nat
  | .resolved i => i
  | .rejectedError i => i
  | .rejectedTimeout i => i
  | .rejectedClosed i => i
  | .rejectedNotOpen i => i

/-- The settlements in a list that belong to one correlation id. -/
def settlementsFor (i : Nat) (l : List Settlement) : List Settlement :=
  l.filter fun s => s.idOf == i

/-- Events serialized onto the single execution context: imperative operations
(call, connect), transport callbacks (open, message, close) and timer
firings. -/
inductive Event
  | callEv (method : String) (now : Nat)
  | connectEv (serverUrl : String)
  | openEv (gen : Nat) (now : Nat)
  | responseEv (gen : Nat) (id : Nat) (isError : Bool)
  | notifEv (gen : Nat) (n : Notification)
  | timeoutEv (id : Nat)
  | initTimeoutEv (id : Nat)
  | closeEv (gen : Nat) (code : Nat) (reason : String)
deriving DecidableEq, Repr

/-- Result of processing one event: the next state, the settlements performed,
the timers armed (id, duration) and the correlation ids allocated. -/
structure StepOut where
  state : ClientState
  settled : List Settlement
  timersArmed : List (Nat × Nat)
  allocated : List Nat
deriving Repr

/-- Status/lastError effect of settling a pending entry: ordinary entries
resolve/reject a caller promise (no status change); the handshake entry's
resolve sets status connected, its reject sets status error. -/
def settleStatus (st : ClientState) (e : PendingEntry) (ok : Bool) : ClientState :=
  match e.kind, ok with
  | .ordinary, _ => st
  | .handshake, true => { st with status := .connected }
  | .handshake, false =>
    { st with status := .error, lastError := some "Initialize rejected" }

/-- call(method, params): allocates the next id (the counter advances before
the send is attempted, as in the source), fails fast when the transport is not
open (no pending record, no timer), otherwise sends, registers the pending
record and arms the CALL_TIMEOUT_MS timer. -/
def stepCall (st : ClientState) (m : String) (now : Nat) : StepOut :=
  if transportOpen st then
    { state := { st with msgIdCounter := st.msgIdCounter + 1,
                         pending := st.pending ++ [(st.msgIdCounter, ⟨m, now, .ordinary⟩)] },
      settled := [], timersArmed := [(st.msgIdCounter, CALL_TIMEOUT_MS)],
      allocated := [st.msgIdCounter] }
  else
    { state := { st with msgIdCounter := st.msgIdCounter + 1 },
      settled := [.rejectedNotOpen st.msgIdCounter], timersArmed := [],
      allocated := [st.msgIdCounter] }

/-- Open a fresh socket: status connecting, clear lastError, record the url,
point wsRef at the new generation. -/
def newConnection (st : ClientState) (u : String) : ClientState :=
  let g := st.wsNextGen
  { st with status := .connecting, lastError := none, url := u,
            wsNextGen := g + 1,
            sockets := st.sockets ++ [(g, ⟨u, .connecting⟩)],
            wsRef := some g }

/-- connect(serverUrl): no-op when the current socket has the same url and is
connecting/open; otherwise close() the existing socket (its close event will
arrive later as a separate closeEv) and open a new one. -/
def stepConnect (st : ClientState) (u : String) : ClientState :=
  match st.wsRef with
  | some g =>
    match lookupA st.sockets g with
    | some sock =>
      if sock.url = u ∧ (sock.state = ReadyState.connecting ∨ sock.state = ReadyState.opened) then st
      else newConnection { st with sockets := closeSocket st.sockets g } u
    | none => newConnection st u
  | none => newConnection st u

/-- ws.onopen: the socket becomes OPEN; if it is still the current socket, the
initialize handshake is sent; its pending record is registered and the
INIT_TIMEOUT_MS timer armed. -/
def stepOpen (st : ClientState) (g : Nat) (now : Nat) : StepOut :=
  if st.wsRef = some g then
    { state := { st with sockets := setSockState st.sockets g .opened,
                         msgIdCounter := st.msgIdCounter + 1,
                         pending := st.pending ++ [(st.msgIdCounter, ⟨"initialize", now, .handshake⟩)] },
      settled := [], timersArmed := [(st.msgIdCounter, INIT_TIMEOUT_MS)],
      allocated := [st.msgIdCounter] }
  else
    { state := { st with sockets := setSockState st.sockets g .opened },
      settled := [], timersArmed := [], allocated := [] }

/-- ws.onmessage, response branch: dropped when the socket is stale; a matching
pending record is removed and settled (rejected on an error payload, resolved
otherwise); an unmatched id is a no-op. -/
def stepResponse (st : ClientState) (g : Nat) (id : Nat) (isErr : Bool) : StepOut :=
  if st.wsRef = some g then
    match lookupA st.pending id with
    | some entry =>
      { state := settleStatus { st with pending := eraseKey st.pending id } entry (!isErr),
        settled := [if isErr then .rejectedError id else .resolved id],
        timersArmed := [], allocated := [] }
    | none => { state := st, settled := [], timersArmed := [], allocated := [] }
  else { state := st, settled := [], timersArmed := [], allocated := [] }

/-- ws.onmessage, notification branch: dropped when the socket is stale,
otherwise routed to handleNotification. -/
def stepNotif (st : ClientState) (g : Nat) (n : Notification) : StepOut :=
  if st.wsRef = some g then
    { state := { st with sessions := handleNotification st.sessions n },
      settled := [], timersArmed := [], allocated := [] }
  else { state := st, settled := [], timersArmed := [], allocated := [] }

/-- Firing of a call() timer: guarded by pendingRef.current.has(id); removes
the record and rejects the call with a timeout error. -/
def stepTimeout (st : ClientState) (id : Nat) : StepOut :=
  match lookupA st.pending id with
  | some _ =>
    { state := { st with pending := eraseKey st.pending id },
      settled := [.rejectedTimeout id], timersArmed := [], allocated := [] }
  | none => { state := st, settled := [], timersArmed := [], allocated := [] }

/-- Firing of the handshake timer: guarded by has(id); removes the record and
sets an error status directly (the entry's reject is not invoked). -/
def stepInitTimeout (st : ClientState) (id : Nat) : StepOut :=
  match lookupA st.pending id with
  | some _ =>
    { state := { st with pending := eraseKey st.pending id, status := .error,
                         lastError := some "Initialize timed out - server connected but did not respond" },
      settled := [], timersArmed := [], allocated := [] }
  | none => { state := st, settled := [], timersArmed := [], allocated := [] }

/-- The status/lastError updates of onclose that run unconditionally, keyed by
the close code. -/
def closeStatusUpd (st : ClientState) (code : Nat) (reason : String) : ClientState :=
  if code = 1000 then { st with status := .disconnected }
  else if code = 1006 then
    { st with status := .error,
              lastError := some (if reason = "" then
                "Connection failed - check URL and that the server is running" else reason) }
  else
    { st with status := .error,
              lastError := some (if reason = "" then "Closed with code " ++ toString code else reason) }

/-- Status effect of rejectAllPending: a handshake entry among the rejected
pending records sets an error status via its reject handler. -/
def rejectAllStatusUpd (p : List (Nat × PendingEntry)) (code : Nat) (st : ClientState) :
    ClientState :=
  if (p.filter fun q => q.2.kind == PendKind.handshake).isEmpty then st
  else { st with status := .error,
                 lastError := some ("Initialize rejected: WebSocket closed (code=" ++ toString code ++ ")") }

/-- ws.onclose: the socket becomes CLOSED; only when it is still the current
socket is wsRef cleared and rejectAllPending run; the close-code status
updates run in every case. -/
def stepClose (st : ClientState) (g : Nat) (code : Nat) (reason : String) : StepOut :=
  if st.wsRef = some g then
    { state := closeStatusUpd
        (rejectAllStatusUpd st.pending code
          { st with sockets := setSockState st.sockets g .closed,
                    wsRef := none, pending := [] }) code reason,
      settled := st.pending.map fun p => Settlement.rejectedClosed p.1,
      timersArmed := [], allocated := [] }
  else
    { state := closeStatusUpd { st with sockets := setSockState st.sockets g .closed } code reason,
      settled := [], timersArmed := [], allocated := [] }

/-- One event processed on the single execution context. -/
def step (st : ClientState) (e : Event) : StepOut :=
  match e with
  | .callEv m now => stepCall st m now
  | .connectEv u => { state := stepConnect st u, settled := [], timersArmed := [], allocated := [] }
  | .openEv g now => stepOpen st g now
  | .responseEv g id isErr => stepResponse st g id isErr
  | .notifEv g n => stepNotif st g n
  | .timeoutEv id => stepTimeout st id
  | .initTimeoutEv id => stepInitTimeout st id
  | .closeEv g code reason => stepClose st g code reason

/-- Accumulated result of a run of events. -/
structure RunOut where
  state : ClientState
  settled : List Settlement
  allocated : List Nat
deriving Repr

/-- Process a list of events in arrival order. -/
def run (st : ClientState) : List Event → RunOut
  | [] => { state := st, settled := [], allocated := [] }
  | e :: es =>
    let o := step st e
    let r := run o.state es
    { state := r.state, settled := o.settled ++ r.settled, allocated := o.allocated ++ r.allocated }

/-- The event kinds quantified over by the exactly-once settlement property:
call invocations interleaved with responses, call-timer firings and
connection closures. -/
def Event.c1Kind : Event → Bool
  | .callEv _ _ => true
  | .responseEv _ _ _ => true
  | .timeoutEv _ => true
  | .closeEv _ _ _ => true
  | _ => false

/-- The socket generation an inbound transport event belongs to. -/
def Event.genOf : Event → Option Nat
  | .openEv g _ => some g
  | .responseEv g _ _ => some g
  | .notifEv g _ => some g
  | .closeEv g _ _ => some g
  | _ => none

/-- Whether an event is addressed at a given pending call: its matching
response, its timeout firing, or any connection closure. -/
def Event.targetsId (id : Nat) : Event → Bool
  | .responseEv _ i _ => i == id
  | .timeoutEv i => i == id
  | .closeEv _ _ _ => true
  | _ => false

/-- The settlement a targeting event produces for a pending call. -/
def Event.settleKindFor (id : Nat) : Event → Settlement
  | .responseEv _ _ isErr => if isErr then .rejectedError id else .resolved id
  | .timeoutEv _ => .rejectedTimeout id
  | _ => .rejectedClosed id

/-! ### Helper lemmas on the session-store functions -/

theorem mem_updateSession_of_mem (sessions : List Session) (tid : String)
    (f : Session → Session) (s : Session) (h : s ∈ sessions) (ht : s.thread_id = tid) :
    f s ∈ updateSession sessions tid f :=
  List.mem_map.mpr ⟨s, h, by simp [ht]⟩

theorem mem_updateSession_of_ne (sessions : List Session) (tid : String)
    (f : Session → Session) (s : Session) (h : s ∈ sessions) (ht : s.thread_id ≠ tid) :
    s ∈ updateSession sessions tid f :=
  List.mem_map.mpr ⟨s, h, by simp [ht]⟩

theorem findByTurn_eq_none (turn_id : String) :
    ∀ sessions : List Session, (∀ s ∈ sessions, s.active_turn_id ≠ some turn_id) →
      findByTurn turn_id sessions = none
  | [], _ => rfl
  | s :: rest, h => by
    unfold findByTurn
    rw [if_neg (h s (List.mem_cons_self s rest))]
    exact findByTurn_eq_none turn_id rest fun x hx => h x (List.mem_cons_of_mem s hx)

theorem findByTurn_some (turn_id : String) :
    ∀ sessions : List Session, ∀ sess : Session,
      findByTurn turn_id sessions = some sess →
      sess ∈ sessions ∧ sess.active_turn_id = some turn_id
  | [], sess, h => by simp [findByTurn] at h
  | s :: rest, sess, h => by
    unfold findByTurn at h
    by_cases hc : s.active_turn_id = some turn_id
    · rw [if_pos hc] at h
      injection h with h2
      subst h2
      exact ⟨List.mem_cons_self _ _, hc⟩
    · rw [if_neg hc] at h
      have h3 := findByTurn_some turn_id rest sess h
      exact ⟨List.mem_cons_of_mem _ h3.1, h3.2⟩

theorem finalizeMsg_not_streaming (m : ChatMessage) : (finalizeMsg m).isStreaming = false := by
  unfold finalizeMsg
  by_cases h : m.isStreaming = true <;> simp [h]

theorem finalizeMsg_of_streaming (m : ChatMessage) (h : m.isStreaming = true) :
    finalizeMsg m = { m with isStreaming := false, items := some (m.items.getD []) } := by
  unfold finalizeMsg
  rw [if_pos h]

theorem finalizeMsg_of_not_streaming (m : ChatMessage) (h : m.isStreaming = false) :
    finalizeMsg m = m := by
  unfold finalizeMsg
  rw [if_neg]
  simp [h]

/-! ### C2 -/

/-- C2 (counterexample): the claim states the handshake timeout is strictly
longer than the ordinary-call timeout; in the source INIT_TIMEOUT_MS is 10000
and CALL_TIMEOUT_MS is 30000, so the claimed inequality fails. -/
theorem c2_counterexample : ¬ (INIT_TIMEOUT_MS > CALL_TIMEOUT_MS) := by decide

/-- C2 (amended): the timeout armed for the handshake (initialize) call has a
strictly SHORTER fixed duration (10000 ms) than the timeout armed for every
ordinary call (30000 ms): onopen arms INIT_TIMEOUT_MS for the handshake and
call() arms CALL_TIMEOUT_MS. -/
theorem c2_handshake_timeout_shorter :
    INIT_TIMEOUT_MS = 10000 ∧ CALL_TIMEOUT_MS = 30000 ∧
    INIT_TIMEOUT_MS < CALL_TIMEOUT_MS ∧
    (∀ st : ClientState, ∀ g now : Nat, st.wsRef = some g →
      (stepOpen st g now).timersArmed = [(st.msgIdCounter, INIT_TIMEOUT_MS)]) ∧
    (∀ st : ClientState, ∀ m : String, ∀ now : Nat, transportOpen st = true →
      (stepCall st m now).timersArmed = [(st.msgIdCounter, CALL_TIMEOUT_MS)]) := by
  refine ⟨rfl, rfl, by decide, ?_, ?_⟩
  · intro st g now h
    unfold stepOpen
    rw [if_pos]
    exact h
  · intro st m now h
    unfold stepCall
    rw [if_pos h]

/-- A concrete state with an open transport socket. -/
def stC2 : ClientState :=
  { url := "ws://localhost:3284", status := .connected, lastError := none, sessions := [],
    wsRef := some 0, wsNextGen := 1, sockets := [(0, ⟨"ws://localhost:3284", .opened⟩)],
    msgIdCounter := 5, pending := [] }

/-- C2 witness: the amended theorem applied at a concrete open-transport state. -/
theorem c2_witness :
    (stepOpen stC2 0 7).timersArmed = [(5, INIT_TIMEOUT_MS)] ∧
    (stepCall stC2 "thread/start" 7).timersArmed = [(5, CALL_TIMEOUT_MS)] :=
  ⟨c2_handshake_timeout_shorter.2.2.2.1 stC2 0 7 rfl,
   c2_handshake_timeout_shorter.2.2.2.2 stC2 "thread/start" 7 rfl⟩

/-! ### C7 -/

/-- C7: a call issued while the transport is not currently open rejects
immediately (a rejectedNotOpen settlement for the allocated id), registers no
pending record, arms no timer, and leaves the pending table and the session
store unchanged. -/
theorem c7_call_not_open_rejects_immediately
    (st : ClientState) (m : String) (now : Nat)
    (h : transportOpen st = false) :
    (stepCall st m now).settled = [Settlement.rejectedNotOpen st.msgIdCounter] ∧
    (stepCall st m now).timersArmed = [] ∧
    (stepCall st m now).state.pending = st.pending ∧
    (stepCall st m now).state.sessions = st.sessions := by
  unfold stepCall
  rw [if_neg]
  · exact ⟨rfl, rfl, rfl, rfl⟩
  · simp [h]

/-- A concrete disconnected state with a non-trivial pending table and store. -/
def stC7 : ClientState :=
  { url := "ws://localhost:3284", status := .disconnected, lastError := none,
    sessions := [{ thread_id := "t1", created_at := 0, cwd := "/w",
                   permission_mode := .default, messages := [] }],
    wsRef := none, wsNextGen := 1, sockets := [], msgIdCounter := 4,
    pending := [(2, ⟨"turn/start", 0, .ordinary⟩)] }

/-- C7 witness: the theorem applied at a concrete closed-transport state. -/
theorem c7_witness :
    (stepCall stC7 "turn/start" 3).settled = [Settlement.rejectedNotOpen 4] ∧
    (stepCall stC7 "turn/start" 3).timersArmed = [] ∧
    (stepCall stC7 "turn/start" 3).state.pending = stC7.pending ∧
    (stepCall stC7 "turn/start" 3).state.sessions = stC7.sessions :=
  c7_call_not_open_rejects_immediately stC7 "turn/start" 3 rfl

/-! ### C9 -/

/-- C9: approvePermission updates permission_mode (to the given mode, or
acceptEdits when absent) and clears both denial flags whether the
approval/respond call succeeds or fails, and changes no other field of the
session: messages, lastBlockedContent, thread_id, cwd, created_at, turns and
active_turn_id are untouched, and sessions with another thread_id are left
unchanged. -/
theorem c9_approve_permission_frame
    (sessions : List Session) (tid : String) (mode : Option PermissionMode)
    (o : CallOutcome) (sess : Session)
    (hmem : sess ∈ sessions) (hT : sess.thread_id = tid) :
    approvePermission sessions tid mode o = approvePermission sessions tid mode .success ∧
    (∃ s2 ∈ approvePermission sessions tid mode o,
      s2.permission_mode = mode.getD .acceptEdits ∧
      s2.hasPermissionDenial = false ∧
      s2.permissionDenials = none ∧
      s2.thread_id = sess.thread_id ∧
      s2.messages = sess.messages ∧
      s2.lastBlockedContent = sess.lastBlockedContent ∧
      s2.cwd = sess.cwd ∧
      s2.created_at = sess.created_at ∧
      s2.active_turn_id = sess.active_turn_id ∧
      s2.turns = sess.turns) ∧
    (∀ s ∈ sessions, s.thread_id ≠ tid → s ∈ approvePermission sessions tid mode o) := by
  have heq : approvePermission sessions tid mode o =
      updateSession sessions tid (approveUpdate mode) := by cases o <;> rfl
  refine ⟨by cases o <;> rfl, ?_, ?_⟩
  · rw [heq]
    exact ⟨approveUpdate mode sess, mem_updateSession_of_mem sessions tid _ sess hmem hT,
      rfl, rfl, rfl, rfl, rfl, rfl, rfl, rfl, rfl, rfl⟩
  · intro s hs hne
    rw [heq]
    exact mem_updateSession_of_ne sessions tid _ s hs hne

/-- A concrete session with a pending denial and blocked content. -/
def sessC9 : Session :=
  { thread_id := "t1", created_at := 3, cwd := "/w", permission_mode := .default,
    active_turn_id := some "r1",
    messages := [{ id := "user-1", role := .user, content := "hi" }],
    lastBlockedContent := some "hi", hasPermissionDenial := true,
    permissionDenials := some [{ tool_name := "Bash", tool_use_id := "x" }] }

/-- A second session on another thread. -/
def sessC9b : Session :=
  { thread_id := "t2", created_at := 4, cwd := "/v", permission_mode := .dontAsk,
    messages := [] }

/-- C9 witness: the theorem applied at a concrete store, for a failing call. -/
theorem c9_witness :
    approvePermission [sessC9, sessC9b] "t1" (some .acceptEdits) .failure =
      approvePermission [sessC9, sessC9b] "t1" (some .acceptEdits) .success ∧
    (∃ s2 ∈ approvePermission [sessC9, sessC9b] "t1" (some .acceptEdits) .failure,
      s2.permission_mode = (some PermissionMode.acceptEdits).getD .acceptEdits ∧
      s2.hasPermissionDenial = false ∧
      s2.permissionDenials = none ∧
      s2.thread_id = sessC9.thread_id ∧
      s2.messages = sessC9.messages ∧
      s2.lastBlockedContent = sessC9.lastBlockedContent ∧
      s2.cwd = sessC9.cwd ∧
      s2.created_at = sessC9.created_at ∧
      s2.active_turn_id = sessC9.active_turn_id ∧
      s2.turns = sessC9.turns) ∧
    (∀ s ∈ [sessC9, sessC9b], s.thread_id ≠ "t1" →
      s ∈ approvePermission [sessC9, sessC9b] "t1" (some .acceptEdits) .failure) :=
  c9_approve_permission_frame [sessC9, sessC9b] "t1" (some .acceptEdits) .failure sessC9
    (List.mem_cons_self _ _) rfl

/-! ### C8 -/

/-- C8: sendMessage appends the user message to the target session, records the
content as lastBlockedContent and clears both denial flags before issuing
turn/start; and a failing turn/start call leaves the session store exactly as
the optimistic update produced it (no rollback). -/
theorem c8_send_message_no_rollback
    (sessions : List Session) (tid content : String) (now : Nat) (sess : Session)
    (hmem : sess ∈ sessions) (hT : sess.thread_id = tid) :
    (sendMessage sessions tid content now .failure).1 =
      (sendMessage sessions tid content now .success).1 ∧
    (∀ o : CallOutcome,
      (sendMessage sessions tid content now o).1 = sendMessageLocal sessions tid content now ∧
      ∃ s2 ∈ (sendMessage sessions tid content now o).1,
        s2.thread_id = tid ∧
        s2.messages = sess.messages ++ [userMsg now content] ∧
        s2.lastBlockedContent = some content ∧
        s2.hasPermissionDenial = false ∧
        s2.permissionDenials = none) := by
  refine ⟨rfl, ?_⟩
  intro o
  have h1 : (sendMessage sessions tid content now o).1 =
      sendMessageLocal sessions tid content now := by cases o <;> rfl
  refine ⟨h1, ?_⟩
  rw [h1]
  unfold sendMessageLocal
  refine ⟨_, List.mem_map.mpr ⟨sess, hmem, rfl⟩, ?_, ?_, ?_, ?_, ?_⟩ <;> simp [hT]

/-- C8 witness: the theorem applied at a concrete store. -/
theorem c8_witness :
    (sendMessage [sessC9] "t1" "run it" 9 .failure).1 =
      (sendMessage [sessC9] "t1" "run it" 9 .success).1 ∧
    (∀ o : CallOutcome,
      (sendMessage [sessC9] "t1" "run it" 9 o).1 = sendMessageLocal [sessC9] "t1" "run it" 9 ∧
      ∃ s2 ∈ (sendMessage [sessC9] "t1" "run it" 9 o).1,
        s2.thread_id = "t1" ∧
        s2.messages = sessC9.messages ++ [userMsg 9 "run it"] ∧
        s2.lastBlockedContent = some "run it" ∧
        s2.hasPermissionDenial = false ∧
        s2.permissionDenials = none) :=
  c8_send_message_no_rollback [sessC9] "t1" "run it" 9 sessC9 (List.mem_cons_self _ _) rfl

/-! ### C6 -/

/-- C6: after processing turn/completed or turn/error for a session, that
session's active_turn_id is cleared, no message of that session remains marked
streaming, every previously streaming message is finalized with its item list
(empty if it had none), and non-streaming messages survive unchanged. -/
theorem c6_turn_finished_clears
    (sessions : List Session) (tid : String) (n : Notification) (sess : Session)
    (hn : n = Notification.turnCompleted tid ∨ n = Notification.turnError tid)
    (hmem : sess ∈ sessions) (hT : sess.thread_id = tid) :
    ∃ s2 ∈ handleNotification sessions n,
      s2.thread_id = tid ∧
      s2.active_turn_id = none ∧
      (∀ m ∈ s2.messages, m.isStreaming = false) ∧
      (∀ m ∈ sess.messages, m.isStreaming = true →
        ({ m with isStreaming := false, items := some (m.items.getD []) }) ∈ s2.messages) ∧
      (∀ m ∈ sess.messages, m.isStreaming = false → m ∈ s2.messages) := by
  have hh : handleNotification sessions n = finishTurn sessions tid := by
    rcases hn with h | h <;> subst h <;> rfl
  rw [hh]
  unfold finishTurn
  refine ⟨_, mem_updateSession_of_mem sessions tid _ sess hmem hT, hT, rfl, ?_, ?_, ?_⟩
  · intro m hm
    rcases List.mem_map.mp hm with ⟨m0, _, h0⟩
    rw [← h0]
    exact finalizeMsg_not_streaming m0
  · intro m hm hstr
    rw [← finalizeMsg_of_streaming m hstr]
    exact List.mem_map_of_mem finalizeMsg hm
  · intro m hm hstr
    have h2 := finalizeMsg_of_not_streaming m hstr
    rw [← h2]
    exact List.mem_map_of_mem finalizeMsg hm

/-- A concrete session mid-turn: a finalized user message, a finalized
assistant message and a live streaming placeholder. -/
def sessC6 : Session :=
  { thread_id := "t1", created_at := 3, cwd := "/w", permission_mode := .default,
    active_turn_id := some "r1",
    messages := [{ id := "user-1", role := .user, content := "hi" },
                 { id := "streaming-r1", role := .assistant, content := "",
                   streamingText := some "Hel", isStreaming := true, items := some [] }] }

/-- C6 witness: the theorem applied to a concrete store at turn/completed. -/
theorem c6_witness :
    ∃ s2 ∈ handleNotification [sessC6] (Notification.turnCompleted "t1"),
      s2.thread_id = "t1" ∧
      s2.active_turn_id = none ∧
      (∀ m ∈ s2.messages, m.isStreaming = false) ∧
      (∀ m ∈ sessC6.messages, m.isStreaming = true →
        ({ m with isStreaming := false, items := some (m.items.getD []) }) ∈ s2.messages) ∧
      (∀ m ∈ sessC6.messages, m.isStreaming = false → m ∈ s2.messages) :=
  c6_turn_finished_clears [sessC6] "t1" (Notification.turnCompleted "t1") sessC6
    (Or.inl rfl) (List.mem_cons_self _ _) rfl

/-! ### C10 -/

/-- C10: an item/progress or item/created notification whose turn_id matches no
session's active_turn_id leaves the session store entirely unchanged. -/
theorem c10_unmatched_turn_events_noop
    (sessions : List Session) (n : Notification) (turn_id : String)
    (hform : (∃ dt dx, n = Notification.itemProgress turn_id dt dx) ∨
             (∃ item, n = Notification.itemCreated turn_id item))
    (hnomatch : ∀ s ∈ sessions, s.active_turn_id ≠ some turn_id) :
    handleNotification sessions n = sessions := by
  have hfind := findByTurn_eq_none turn_id sessions hnomatch
  rcases hform with ⟨dt, dx, h⟩ | ⟨item, h⟩ <;> subst h <;>
    simp [handleNotification, hfind]

/-- C10 witness: a store whose only session is on a different active turn. -/
theorem c10_witness :
    handleNotification [sessC6]
      (Notification.itemCreated "r2" ⟨"i1", 5, Item.text "x"⟩) = [sessC6] :=
  c10_unmatched_turn_events_noop [sessC6]
    (Notification.itemCreated "r2" ⟨"i1", 5, Item.text "x"⟩) "r2"
    (Or.inr ⟨⟨"i1", 5, Item.text "x"⟩, rfl⟩)
    (by intro s hs; simp at hs; subst hs; simp [sessC6])

/-! ### C4 -/

theorem findAssistantByKey_some (key : String) :
    ∀ l : List ChatMessage, ∀ a : ChatMessage,
      findAssistantByKey key l = some a →
      a ∈ l ∧ a.role = MessageRole.assistant ∧ a.id = key
  | [], a, h => by simp [findAssistantByKey] at h
  | m :: rest, a, h => by
    unfold findAssistantByKey at h
    by_cases hc : m.role = MessageRole.assistant ∧ m.id = key
    · rw [if_pos hc] at h
      injection h with h2
      subst h2
      exact ⟨List.mem_cons_self _ _, hc.1, hc.2⟩
    · rw [if_neg hc] at h
      have h3 := findAssistantByKey_some key rest a h
      exact ⟨List.mem_cons_of_mem _ h3.1, h3.2⟩

theorem findIdxById_lt_length (key : String) :
    ∀ l : List ChatMessage, ∀ a : ChatMessage, a ∈ l → a.id = key →
      findIdxById key l < l.length
  | [], a, ha, _ => by simp at ha
  | x :: xs, a, ha, hk => by
    unfold findIdxById
    by_cases hx : x.id = key
    · rw [if_pos hx]
      simp
    · rw [if_neg hx]
      rcases List.mem_cons.mp ha with h | h
      · subst h
        exact absurd hk hx
      · have h2 := findIdxById_lt_length key xs a h hk
        simp only [List.length_cons]
        omega

theorem mem_set_findIdxById_of_ne (key : String) (b : ChatMessage) :
    ∀ l : List ChatMessage, ∀ m : ChatMessage, m ∈ l → m.id ≠ key →
      m ∈ l.set (findIdxById key l) b
  | [], m, hm, _ => by simp at hm
  | x :: xs, m, hm, hne => by
    unfold findIdxById
    by_cases hx : x.id = key
    · rw [if_pos hx]
      rcases List.mem_cons.mp hm with h | h
      · subst h
        exact absurd hx hne
      · exact List.mem_cons_of_mem _ h
    · rw [if_neg hx]
      show m ∈ x :: xs.set (findIdxById key xs) b
      rcases List.mem_cons.mp hm with h | h
      · subst h
        exact List.mem_cons_self _ _
      · exact List.mem_cons_of_mem _ (mem_set_findIdxById_of_ne key b xs m h hne)

theorem createdUpdate_eq_none (turn_id : String) (item : StoredItem) (s : Session)
    (h : findAssistantByKey (turnKey turn_id)
      (s.messages.filter fun m => !(m.isStreaming && item.item.isText)) = none) :
    createdUpdate turn_id item s =
      { s with messages := (s.messages.filter fun m => !(m.isStreaming && item.item.isText)) ++
                   [{ id := turnKey turn_id, role := .assistant, content := "",
                      items := some [item], isStreaming := false }] } := by
  simp only [createdUpdate, h]

theorem createdUpdate_eq_some (turn_id : String) (item : StoredItem) (s : Session)
    (aMsg : ChatMessage)
    (h : findAssistantByKey (turnKey turn_id)
      (s.messages.filter fun m => !(m.isStreaming && item.item.isText)) = some aMsg) :
    createdUpdate turn_id item s =
      { s with messages := (s.messages.filter fun m => !(m.isStreaming && item.item.isText)).set
                   (findIdxById (turnKey turn_id)
                     (s.messages.filter fun m => !(m.isStreaming && item.item.isText)))
                   { aMsg with items := some ((aMsg.items.getD []) ++ [item]) } } := by
  simp only [createdUpdate, h]

/-- Characterization of the per-session item/created update used by the C4
amendment: the per-turn assistant message holds the item as its last element,
streaming messages are all gone when the item is a text item, and a streaming
message (other than the per-turn message itself) survives when it is not. -/
theorem createdUpdate_spec (turn_id : String) (item : StoredItem) (s : Session) :
    (createdUpdate turn_id item s).thread_id = s.thread_id ∧
    (∃ m ∈ (createdUpdate turn_id item s).messages,
      m.id = turnKey turn_id ∧ m.role = MessageRole.assistant ∧
      (m.items.getD []).getLast? = some item) ∧
    (item.item.isText = true →
      ∀ m ∈ (createdUpdate turn_id item s).messages, m.isStreaming = false) ∧
    (item.item.isText = false →
      ∀ m ∈ s.messages, m.isStreaming = true → m.id ≠ turnKey turn_id →
        m ∈ (createdUpdate turn_id item s).messages) := by
  cases hfa : findAssistantByKey (turnKey turn_id)
      (s.messages.filter fun m => !(m.isStreaming && item.item.isText)) with
  | none =>
    rw [createdUpdate_eq_none turn_id item s hfa]
    refine ⟨rfl, ?_, ?_, ?_⟩
    · refine ⟨_, List.mem_append_right _ (List.mem_singleton.mpr rfl), rfl, rfl, rfl⟩
    · intro htext m hm
      rcases List.mem_append.mp hm with h | h
      · have h2 := (List.mem_filter.mp h).2
        rw [htext] at h2
        simpa using h2
      · rw [List.mem_singleton.mp h]
    · intro htext m hm hstr _
      refine List.mem_append_left _ (List.mem_filter.mpr ⟨hm, ?_⟩)
      rw [htext]
      simp
  | some aMsg =>
    obtain ⟨hamem, harole, haid⟩ := findAssistantByKey_some _ _ _ hfa
    rw [createdUpdate_eq_some turn_id item s aMsg hfa]
    refine ⟨rfl, ?_, ?_, ?_⟩
    · refine ⟨_, List.mem_set _ _ (findIdxById_lt_length (turnKey turn_id) _ aMsg hamem haid) _,
        haid, harole, ?_⟩
      simp [List.getLast?_concat]
    · intro htext m hm
      rcases List.mem_or_eq_of_mem_set hm with h | h
      · have h2 := (List.mem_filter.mp h).2
        rw [htext] at h2
        simpa using h2
      · subst h
        have h2 := (List.mem_filter.mp hamem).2
        rw [htext] at h2
        simpa using h2
    · intro htext m hm hstr hne
      refine mem_set_findIdxById_of_ne (turnKey turn_id) _ _ m
        (List.mem_filter.mpr ⟨hm, ?_⟩) hne
      rw [htext]
      simp

/-- C4 (amended): handling item/created for a session located by
active_turn_id == turn_id appends the item to the assistant message keyed by
the stable per-turn identity (creating it on the first item, the item always
last), but drops streaming placeholder messages ONLY when the created item is
a text item; for any other variant every streaming message (other than the
per-turn message itself) is kept. -/
theorem c4_item_created_amended
    (sessions : List Session) (turn_id : String) (item : StoredItem) (sess : Session)
    (hfind : findByTurn turn_id sessions = some sess) :
    ∃ s2 ∈ handleNotification sessions (Notification.itemCreated turn_id item),
      s2.thread_id = sess.thread_id ∧
      (∃ m ∈ s2.messages,
        m.id = turnKey turn_id ∧ m.role = MessageRole.assistant ∧
        (m.items.getD []).getLast? = some item) ∧
      (item.item.isText = true → ∀ m ∈ s2.messages, m.isStreaming = false) ∧
      (item.item.isText = false →
        ∀ m ∈ sess.messages, m.isStreaming = true → m.id ≠ turnKey turn_id →
          m ∈ s2.messages) := by
  obtain ⟨hsmem, _⟩ := findByTurn_some turn_id sessions sess hfind
  have hh : handleNotification sessions (Notification.itemCreated turn_id item) =
      applyCreated turn_id item sess.thread_id sessions := by
    simp only [handleNotification, hfind]
  rw [hh]
  have hspec := createdUpdate_spec turn_id item sess
  exact ⟨createdUpdate turn_id item sess, List.mem_map.mpr ⟨sess, hsmem, by simp⟩,
    hspec.1, hspec.2.1, hspec.2.2.1, hspec.2.2.2⟩

/-- A non-text (tool_call) created item. -/
def itemC4 : StoredItem := ⟨"i1", 5, Item.tool_call "tu1" "Bash" "ls"⟩

/-- A live streaming placeholder message. -/
def streamMsgC4 : ChatMessage :=
  { id := "streaming-r1", role := .assistant, content := "",
    items := some [], streamingText := some "Hel", isStreaming := true }

/-- A session whose active turn is r1 and whose only message is the streaming
placeholder. -/
def sessC4 : Session :=
  { thread_id := "t1", created_at := 0, cwd := "/w", permission_mode := .default,
    active_turn_id := some "r1", messages := [streamMsgC4] }

/-- C4 (counterexample): the claim says a created item drops the streaming
placeholder regardless of its variant; for a tool_call item the source keeps
the placeholder: after handling, the store's messages are exactly the intact
streaming placeholder followed by the new per-turn message. -/
theorem c4_counterexample :
    Item.isText itemC4.item = false ∧
    streamMsgC4.isStreaming = true ∧
    handleNotification [sessC4] (Notification.itemCreated "r1" itemC4) =
      [{ sessC4 with messages := [streamMsgC4,
           { id := "turn-r1", role := .assistant, content := "",
             items := some [itemC4], isStreaming := false }] }] :=
  ⟨rfl, rfl, rfl⟩

/-- C4 witness: the amended theorem applied at the concrete store above. -/
theorem c4_witness :
    ∃ s2 ∈ handleNotification [sessC4] (Notification.itemCreated "r1" itemC4),
      s2.thread_id = sessC4.thread_id ∧
      (∃ m ∈ s2.messages,
        m.id = turnKey "r1" ∧ m.role = MessageRole.assistant ∧
        (m.items.getD []).getLast? = some itemC4) ∧
      (itemC4.item.isText = true → ∀ m ∈ s2.messages, m.isStreaming = false) ∧
      (itemC4.item.isText = false →
        ∀ m ∈ sessC4.messages, m.isStreaming = true → m.id ≠ turnKey "r1" →
          m ∈ s2.messages) :=
  c4_item_created_amended [sessC4] "r1" itemC4 sessC4 rfl

/-! ### C3 -/

theorem closeStatusUpd_pending (st : ClientState) (code : Nat) (reason : String) :
    (closeStatusUpd st code reason).pending = st.pending := by
  unfold closeStatusUpd
  split
  · rfl
  · split <;> rfl

theorem closeStatusUpd_msgIdCounter (st : ClientState) (code : Nat) (reason : String) :
    (closeStatusUpd st code reason).msgIdCounter = st.msgIdCounter := by
  unfold closeStatusUpd
  split
  · rfl
  · split <;> rfl

/-- C3 (amended): when connect is invoked while a previous connection exists to
a different address, the pending calls registered against the old connection
are NOT rejected: connect replaces the current-socket reference synchronously,
so when the old socket's close event later arrives its wsRef.current === ws
guard fails, rejectAllPending is skipped, and every old pending record is
still outstanding (in the shared pending table) once the new connection is in
use. -/
theorem c3_reconnect_does_not_reject_old_pending
    (st : ClientState) (g : Nat) (sock : Socket) (u2 : String) (code : Nat) (reason : String)
    (hws : st.wsRef = some g)
    (hsock : lookupA st.sockets g = some sock)
    (hdiff : sock.url ≠ u2)
    (hg : g ≠ st.wsNextGen) :
    (stepConnect st u2).wsRef = some st.wsNextGen ∧
    (stepConnect st u2).pending = st.pending ∧
    (step (stepConnect st u2) (Event.closeEv g code reason)).state.pending = st.pending ∧
    (step (stepConnect st u2) (Event.closeEv g code reason)).settled = [] := by
  have h1 : stepConnect st u2 = newConnection { st with sockets := closeSocket st.sockets g } u2 := by
    simp only [stepConnect, hws, hsock]
    rw [if_neg]
    intro hc
    exact hdiff hc.1
  have href : (stepConnect st u2).wsRef = some st.wsNextGen := by
    rw [h1]
    rfl
  have hpend : (stepConnect st u2).pending = st.pending := by
    rw [h1]
    rfl
  have hguard : ¬ ((stepConnect st u2).wsRef = some g) := by
    rw [href]
    intro hc
    injection hc with hc2
    exact hg hc2.symm
  refine ⟨href, hpend, ?_, ?_⟩
  · show (stepClose (stepConnect st u2) g code reason).state.pending = st.pending
    unfold stepClose
    rw [if_neg hguard]
    simpa [closeStatusUpd_pending] using hpend
  · show (stepClose (stepConnect st u2) g code reason).settled = []
    unfold stepClose
    rw [if_neg hguard]

/-- The pending record registered against the old connection. -/
def entryC3 : PendingEntry := ⟨"turn/start", 100, .ordinary⟩

/-- A connected state (socket generation 1) with one outstanding call, id 42. -/
def stC3 : ClientState :=
  { url := "ws://a", status := .connected, lastError := none, sessions := [],
    wsRef := some 1, wsNextGen := 2, sockets := [(1, ⟨"ws://a", .opened⟩)],
    msgIdCounter := 43, pending := [(42, entryC3)] }

/-- C3 (counterexample): the claim says all old pending calls are rejected
before the new connection is considered and none remains outstanding; in the
source, after connect("ws://b") and the old socket's close event, the new
connection is in use (wsRef = generation 2) while pending call 42 is still
outstanding and no settlement happened at all. -/
theorem c3_counterexample :
    (run stC3 [Event.connectEv "ws://b", Event.closeEv 1 1006 ""]).state.wsRef = some 2 ∧
    lookupA (run stC3 [Event.connectEv "ws://b", Event.closeEv 1 1006 ""]).state.pending 42 =
      some entryC3 ∧
    (run stC3 [Event.connectEv "ws://b", Event.closeEv 1 1006 ""]).settled = [] :=
  ⟨rfl, rfl, rfl⟩

/-- C3 witness: the amended theorem applied at the concrete state above. -/
theorem c3_witness :
    (stepConnect stC3 "ws://b").wsRef = some stC3.wsNextGen ∧
    (stepConnect stC3 "ws://b").pending = stC3.pending ∧
    (step (stepConnect stC3 "ws://b") (Event.closeEv 1 1006 "")).state.pending = stC3.pending ∧
    (step (stepConnect stC3 "ws://b") (Event.closeEv 1 1006 "")).settled = [] :=
  c3_reconnect_does_not_reject_old_pending stC3 1 ⟨"ws://a", .opened⟩ "ws://b" 1006 ""
    rfl rfl (by decide) (by decide)

/-! ### C5 -/

theorem settleStatus_msgIdCounter (st : ClientState) (e : PendingEntry) (ok : Bool) :
    (settleStatus st e ok).msgIdCounter = st.msgIdCounter := by
  rcases e with ⟨m, t, k⟩
  cases k <;> cases ok <;> rfl

theorem settleStatus_pending (st : ClientState) (e : PendingEntry) (ok : Bool) :
    (settleStatus st e ok).pending = st.pending := by
  rcases e with ⟨m, t, k⟩
  cases k <;> cases ok <;> rfl

theorem settleStatus_wsRef (st : ClientState) (e : PendingEntry) (ok : Bool) :
    (settleStatus st e ok).wsRef = st.wsRef := by
  rcases e with ⟨m, t, k⟩
  cases k <;> cases ok <;> rfl

theorem rejectAllStatusUpd_pending (p : List (Nat × PendingEntry)) (code : Nat)
    (st : ClientState) : (rejectAllStatusUpd p code st).pending = st.pending := by
  unfold rejectAllStatusUpd
  split <;> rfl

theorem rejectAllStatusUpd_msgIdCounter (p : List (Nat × PendingEntry)) (code : Nat)
    (st : ClientState) : (rejectAllStatusUpd p code st).msgIdCounter = st.msgIdCounter := by
  unfold rejectAllStatusUpd
  split <;> rfl

theorem stepConnect_msgIdCounter (st : ClientState) (u : String) :
    (stepConnect st u).msgIdCounter = st.msgIdCounter := by
  unfold stepConnect
  repeat' split
  all_goals rfl

/-- Every event either allocates no correlation id and keeps the counter, or
allocates exactly the current counter value and advances it by one. -/
theorem step_alloc (st : ClientState) (e : Event) :
    ((step st e).allocated = [] ∧ (step st e).state.msgIdCounter = st.msgIdCounter) ∨
    ((step st e).allocated = [st.msgIdCounter] ∧
      (step st e).state.msgIdCounter = st.msgIdCounter + 1) := by
  cases e with
  | callEv m now =>
    right
    show (stepCall st m now).allocated = [st.msgIdCounter] ∧
      (stepCall st m now).state.msgIdCounter = st.msgIdCounter + 1
    unfold stepCall
    split
    · exact ⟨rfl, rfl⟩
    · exact ⟨rfl, rfl⟩
  | connectEv u =>
    left
    exact ⟨rfl, stepConnect_msgIdCounter st u⟩
  | openEv g now =>
    show ((stepOpen st g now).allocated = [] ∧
        (stepOpen st g now).state.msgIdCounter = st.msgIdCounter) ∨
      ((stepOpen st g now).allocated = [st.msgIdCounter] ∧
        (stepOpen st g now).state.msgIdCounter = st.msgIdCounter + 1)
    unfold stepOpen
    split
    · right
      exact ⟨rfl, rfl⟩
    · left
      exact ⟨rfl, rfl⟩
  | responseEv g id isErr =>
    left
    show (stepResponse st g id isErr).allocated = [] ∧
      (stepResponse st g id isErr).state.msgIdCounter = st.msgIdCounter
    unfold stepResponse
    split
    · split
      · exact ⟨rfl, settleStatus_msgIdCounter _ _ _⟩
      · exact ⟨rfl, rfl⟩
    · exact ⟨rfl, rfl⟩
  | notifEv g n =>
    left
    show (stepNotif st g n).allocated = [] ∧
      (stepNotif st g n).state.msgIdCounter = st.msgIdCounter
    unfold stepNotif
    split
    · exact ⟨rfl, rfl⟩
    · exact ⟨rfl, rfl⟩
  | timeoutEv id =>
    left
    show (stepTimeout st id).allocated = [] ∧
      (stepTimeout st id).state.msgIdCounter = st.msgIdCounter
    unfold stepTimeout
    split
    · exact ⟨rfl, rfl⟩
    · exact ⟨rfl, rfl⟩
  | initTimeoutEv id =>
    left
    show (stepInitTimeout st id).allocated = [] ∧
      (stepInitTimeout st id).state.msgIdCounter = st.msgIdCounter
    unfold stepInitTimeout
    split
    · exact ⟨rfl, rfl⟩
    · exact ⟨rfl, rfl⟩
  | closeEv g code reason =>
    left
    show (stepClose st g code reason).allocated = [] ∧
      (stepClose st g code reason).state.msgIdCounter = st.msgIdCounter
    unfold stepClose
    split
    · refine ⟨rfl, ?_⟩
      rw [closeStatusUpd_msgIdCounter, rejectAllStatusUpd_msgIdCounter]
    · exact ⟨rfl, closeStatusUpd_msgIdCounter _ _ _⟩

/-- Over any run, the allocated ids are strictly increasing and bounded below
by the starting counter. -/
theorem run_allocated_mono :
    ∀ (es : List Event) (st : ClientState),
      (run st es).allocated.Pairwise (fun a b => a < b) ∧
      (∀ i ∈ (run st es).allocated, st.msgIdCounter ≤ i)
  | [], st => by
    constructor
    · exact List.Pairwise.nil
    · intro i hi
      simp [run] at hi
  | e :: es, st => by
    have ih := run_allocated_mono es (step st e).state
    have hshow : (run st (e :: es)).allocated =
        (step st e).allocated ++ (run (step st e).state es).allocated := rfl
    rw [hshow]
    rcases step_alloc st e with ⟨ha, hc⟩ | ⟨ha, hc⟩
    · rw [ha, List.nil_append]
      refine ⟨ih.1, fun i hi => ?_⟩
      have h2 := ih.2 i hi
      omega
    · rw [ha, List.singleton_append]
      constructor
      · refine List.pairwise_cons.mpr ⟨fun b hb => ?_, ih.1⟩
        have h2 := ih.2 b hb
        omega
      · intro i hi
        rcases List.mem_cons.mp hi with h | h
        · omega
        · have h2 := ih.2 i h
          omega

/-- C5: correlation ids allocated to outbound calls and the handshake over any
run of events are strictly increasing (hence pairwise distinct, never reused
for the lifetime of the process); and processing an inbound response whose id
matches no pending record leaves the whole client state - pending table and
session store included - unchanged and settles nothing. -/
theorem c5_ids_increasing_unmatched_response_noop
    (st : ClientState) (es : List Event) (g : Nat) (id : Nat) (isErr : Bool)
    (hno : lookupA st.pending id = none) :
    (run st es).allocated.Pairwise (fun a b => a < b) ∧
    (run st es).allocated.Nodup ∧
    (step st (Event.responseEv g id isErr)).state = st ∧
    (step st (Event.responseEv g id isErr)).settled = [] := by
  have hmono := run_allocated_mono es st
  refine ⟨hmono.1, hmono.1.imp fun h => Nat.ne_of_lt h, ?_, ?_⟩
  · show (stepResponse st g id isErr).state = st
    unfold stepResponse
    by_cases hw : st.wsRef = some g
    · rw [if_pos hw, hno]
    · rw [if_neg hw]
  · show (stepResponse st g id isErr).settled = []
    unfold stepResponse
    by_cases hw : st.wsRef = some g
    · rw [if_pos hw, hno]
    · rw [if_neg hw]

/-- C5 witness: two calls from the concrete open state allocate 5 then 6, and
an unmatched response (id 99) is a complete no-op. -/
theorem c5_witness :
    (run stC2 [Event.callEv "thread/start" 1, Event.callEv "turn/start" 2]).allocated.Pairwise
      (fun a b => a < b) ∧
    (run stC2 [Event.callEv "thread/start" 1, Event.callEv "turn/start" 2]).allocated.Nodup ∧
    (step stC2 (Event.responseEv 0 99 false)).state = stC2 ∧
    (step stC2 (Event.responseEv 0 99 false)).settled = [] :=
  c5_ids_increasing_unmatched_response_noop stC2
    [Event.callEv "thread/start" 1, Event.callEv "turn/start" 2] 0 99 false rfl

/-! ### C1 -/

theorem lookupA_cons {α : Type} (a : Nat) (b : α) (rest : List (Nat × α)) (k : Nat) :
    lookupA ((a, b) :: rest) k = if a = k then some b else lookupA rest k := rfl

theorem eraseKey_cons {α : Type} (a : Nat) (b : α) (rest : List (Nat × α)) (k : Nat) :
    eraseKey ((a, b) :: rest) k =
      if a = k then eraseKey rest k else (a, b) :: eraseKey rest k := by
  unfold eraseKey
  rw [List.filter_cons]
  by_cases h : a = k
  · simp [h]
  · simp [h]

theorem lookupA_eq_none_iff {α : Type} :
    ∀ (l : List (Nat × α)) (k : Nat), lookupA l k = none ↔ ∀ p ∈ l, p.1 ≠ k
  | [], k => by simp [lookupA]
  | (a, b) :: rest, k => by
    rw [lookupA_cons]
    by_cases h : a = k
    · simp only [if_pos h]
      constructor
      · intro hc
        exact absurd hc (by simp)
      · intro hall
        exact absurd h (hall (a, b) (List.mem_cons_self _ _))
    · simp only [if_neg h]
      rw [lookupA_eq_none_iff rest k]
      constructor
      · intro hall q hq
        rcases List.mem_cons.mp hq with h2 | h2
        · rw [h2]
          exact h
        · exact hall q h2
      · intro hall q hq
        exact hall q (List.mem_cons_of_mem _ hq)

theorem mem_keys_of_lookupA {α : Type} :
    ∀ (l : List (Nat × α)) (k : Nat) (v : α), lookupA l k = some v →
      k ∈ l.map Prod.fst
  | [], k, v, h => by simp [lookupA] at h
  | (a, b) :: rest, k, v, h => by
    rw [lookupA_cons] at h
    rw [List.map_cons]
    by_cases hp : a = k
    · rw [hp]
      exact List.mem_cons_self _ _
    · rw [if_neg hp] at h
      exact List.mem_cons_of_mem _ (mem_keys_of_lookupA rest k v h)

theorem lookupA_eraseKey_self {α : Type} :
    ∀ (l : List (Nat × α)) (k : Nat), lookupA (eraseKey l k) k = none
  | [], _ => rfl
  | (a, b) :: rest, k => by
    rw [eraseKey_cons]
    by_cases h : a = k
    · rw [if_pos h]
      exact lookupA_eraseKey_self rest k
    · rw [if_neg h, lookupA_cons, if_neg h]
      exact lookupA_eraseKey_self rest k

theorem lookupA_eraseKey_ne {α : Type} :
    ∀ (l : List (Nat × α)) (k j : Nat), j ≠ k →
      lookupA (eraseKey l k) j = lookupA l j
  | [], _, _, _ => rfl
  | (a, b) :: rest, k, j, hne => by
    rw [eraseKey_cons, lookupA_cons]
    by_cases h : a = k
    · rw [if_pos h, if_neg (fun hc : a = j => hne (hc ▸ h))]
      exact lookupA_eraseKey_ne rest k j hne
    · rw [if_neg h, lookupA_cons]
      by_cases hj : a = j
      · rw [if_pos hj, if_pos hj]
      · rw [if_neg hj, if_neg hj]
        exact lookupA_eraseKey_ne rest k j hne

theorem lookupA_append_ne {α : Type} :
    ∀ (l : List (Nat × α)) (c : Nat) (v : α) (k : Nat), c ≠ k →
      lookupA (l ++ [(c, v)]) k = lookupA l k
  | [], c, v, k, h => by
    show lookupA [(c, v)] k = none
    rw [lookupA_cons, if_neg h]
    rfl
  | (a, b) :: rest, c, v, k, h => by
    show lookupA ((a, b) :: (rest ++ [(c, v)])) k = lookupA ((a, b) :: rest) k
    rw [lookupA_cons, lookupA_cons]
    by_cases hp : a = k
    · rw [if_pos hp, if_pos hp]
    · rw [if_neg hp, if_neg hp]
      exact lookupA_append_ne rest c v k h

theorem keys_eraseKey {α : Type} :
    ∀ (l : List (Nat × α)) (k : Nat),
      (eraseKey l k).map Prod.fst = (l.map Prod.fst).filter (fun j => j != k)
  | [], _ => rfl
  | (a, b) :: rest, k => by
    by_cases h : a = k
    · simp [eraseKey_cons, h, keys_eraseKey rest k]
    · simp [eraseKey_cons, h, keys_eraseKey rest k]

theorem settlementsFor_append (id : Nat) (a b : List Settlement) :
    settlementsFor id (a ++ b) = settlementsFor id a ++ settlementsFor id b := by
  unfold settlementsFor
  rw [List.filter_append]

theorem settlementsFor_singleton_ne (id : Nat) (s : Settlement) (h : s.idOf ≠ id) :
    settlementsFor id [s] = [] := by
  simp [settlementsFor, List.filter_cons, h]

theorem settlementsFor_singleton_eq (id : Nat) (s : Settlement) (h : s.idOf = id) :
    settlementsFor id [s] = [s] := by
  simp [settlementsFor, List.filter_cons, h]

theorem settlementsFor_map_closed_none (id : Nat) :
    ∀ p : List (Nat × PendingEntry), (∀ q ∈ p, q.1 ≠ id) →
      settlementsFor id (p.map fun q => Settlement.rejectedClosed q.1) = []
  | [], _ => rfl
  | q :: rest, h => by
    rw [List.map_cons]
    show settlementsFor id (Settlement.rejectedClosed q.1 ::
      (rest.map fun q2 => Settlement.rejectedClosed q2.1)) = []
    unfold settlementsFor
    rw [List.filter_cons]
    have hq : ((Settlement.rejectedClosed q.1).idOf == id) = false := by
      simpa [Settlement.idOf] using h q (List.mem_cons_self _ _)
    rw [hq]
    have h2 := settlementsFor_map_closed_none id rest
      (fun q2 hq2 => h q2 (List.mem_cons_of_mem _ hq2))
    unfold settlementsFor at h2
    simpa using h2

theorem settlementsFor_map_closed_single (id : Nat) :
    ∀ p : List (Nat × PendingEntry), (p.map Prod.fst).Nodup →
      id ∈ p.map Prod.fst →
      settlementsFor id (p.map fun q => Settlement.rejectedClosed q.1) =
        [Settlement.rejectedClosed id]
  | [], _, hmem => by simp at hmem
  | q :: rest, hnd, hmem => by
    rw [List.map_cons]
    show settlementsFor id (Settlement.rejectedClosed q.1 ::
      (rest.map fun q2 => Settlement.rejectedClosed q2.1)) = _
    unfold settlementsFor
    rw [List.filter_cons]
    rw [List.map_cons] at hnd hmem
    by_cases h : q.1 = id
    · have hq : ((Settlement.rejectedClosed q.1).idOf == id) = true := by
        simpa [Settlement.idOf] using h
      rw [hq, h]
      have hrest : ∀ q2 ∈ rest, q2.1 ≠ id := by
        intro q2 hq2 hc
        have h3 := (List.pairwise_cons.mp hnd).1 q2.1 (List.mem_map_of_mem Prod.fst hq2)
        rw [h, hc] at h3
        exact h3 rfl
      have h4 := settlementsFor_map_closed_none id rest hrest
      unfold settlementsFor at h4
      rw [h4]
      simp
    · have hq : ((Settlement.rejectedClosed q.1).idOf == id) = false := by
        simpa [Settlement.idOf] using h
      rw [hq]
      have hmem2 : id ∈ rest.map Prod.fst := by
        rcases List.mem_cons.mp hmem with h2 | h2
        · exact absurd h2.symm h
        · exact h2
      have h5 := settlementsFor_map_closed_single id rest (List.pairwise_cons.mp hnd).2 hmem2
      unfold settlementsFor at h5
      rw [h5]
      simp

theorem lookupA_eraseKey_none {α : Type} (l : List (Nat × α)) (k j : Nat)
    (h : lookupA l j = none) : lookupA (eraseKey l k) j = none := by
  by_cases hjk : j = k
  · rw [hjk]
    exact lookupA_eraseKey_self l k
  · rw [lookupA_eraseKey_ne l k j hjk]
    exact h

theorem stepConnect_pending (st : ClientState) (u : String) :
    (stepConnect st u).pending = st.pending := by
  unfold stepConnect
  repeat' split
  all_goals rfl

/-- Once an id is absent from the pending table (and below the counter, so it
is never reallocated), no later event of any kind can settle it. -/
theorem step_no_resettle (st : ClientState) (e : Event) (id : Nat)
    (hid : id < st.msgIdCounter) (hno : lookupA st.pending id = none) :
    settlementsFor id (step st e).settled = [] ∧
    lookupA (step st e).state.pending id = none := by
  cases e with
  | callEv m now =>
    show settlementsFor id (stepCall st m now).settled = [] ∧
      lookupA (stepCall st m now).state.pending id = none
    unfold stepCall
    split
    · refine ⟨rfl, ?_⟩
      show lookupA (st.pending ++ [(st.msgIdCounter, ⟨m, now, .ordinary⟩)]) id = none
      rw [lookupA_append_ne st.pending st.msgIdCounter _ id (by omega)]
      exact hno
    · refine ⟨?_, hno⟩
      refine settlementsFor_singleton_ne id _ ?_
      show st.msgIdCounter ≠ id
      omega
  | connectEv u =>
    refine ⟨rfl, ?_⟩
    show lookupA (stepConnect st u).pending id = none
    rw [stepConnect_pending]
    exact hno
  | openEv g now =>
    show settlementsFor id (stepOpen st g now).settled = [] ∧
      lookupA (stepOpen st g now).state.pending id = none
    unfold stepOpen
    split
    · refine ⟨rfl, ?_⟩
      show lookupA (st.pending ++ [(st.msgIdCounter, ⟨"initialize", now, .handshake⟩)]) id = none
      rw [lookupA_append_ne st.pending st.msgIdCounter _ id (by omega)]
      exact hno
    · exact ⟨rfl, hno⟩
  | responseEv g rid isErr =>
    show settlementsFor id (stepResponse st g rid isErr).settled = [] ∧
      lookupA (stepResponse st g rid isErr).state.pending id = none
    unfold stepResponse
    split
    · split
      · rename_i entry heq
        have hne : rid ≠ id := by
          intro hc
          rw [hc, hno] at heq
          cases heq
        constructor
        · refine settlementsFor_singleton_ne id _ ?_
          cases isErr <;> simpa [Settlement.idOf] using hne
        · rw [settleStatus_pending]
          show lookupA (eraseKey st.pending rid) id = none
          exact lookupA_eraseKey_none st.pending rid id hno
      · exact ⟨rfl, hno⟩
    · exact ⟨rfl, hno⟩
  | notifEv g n =>
    show settlementsFor id (stepNotif st g n).settled = [] ∧
      lookupA (stepNotif st g n).state.pending id = none
    unfold stepNotif
    split
    · exact ⟨rfl, hno⟩
    · exact ⟨rfl, hno⟩
  | timeoutEv tid =>
    show settlementsFor id (stepTimeout st tid).settled = [] ∧
      lookupA (stepTimeout st tid).state.pending id = none
    unfold stepTimeout
    split
    · rename_i entry heq
      have hne : tid ≠ id := by
        intro hc
        rw [hc, hno] at heq
        cases heq
      constructor
      · refine settlementsFor_singleton_ne id _ ?_
        simpa [Settlement.idOf] using hne
      · show lookupA (eraseKey st.pending tid) id = none
        exact lookupA_eraseKey_none st.pending tid id hno
    · exact ⟨rfl, hno⟩
  | initTimeoutEv tid =>
    show settlementsFor id (stepInitTimeout st tid).settled = [] ∧
      lookupA (stepInitTimeout st tid).state.pending id = none
    unfold stepInitTimeout
    split
    · refine ⟨rfl, ?_⟩
      show lookupA (eraseKey st.pending tid) id = none
      exact lookupA_eraseKey_none st.pending tid id hno
    · exact ⟨rfl, hno⟩
  | closeEv g code reason =>
    show settlementsFor id (stepClose st g code reason).settled = [] ∧
      lookupA (stepClose st g code reason).state.pending id = none
    unfold stepClose
    split
    · constructor
      · exact settlementsFor_map_closed_none id st.pending
          ((lookupA_eq_none_iff st.pending id).mp hno)
      · rw [closeStatusUpd_pending, rejectAllStatusUpd_pending]
        rfl
    · refine ⟨rfl, ?_⟩
      rw [closeStatusUpd_pending]
      exact hno

/-- Trace version of step_no_resettle. -/
theorem run_no_resettle :
    ∀ (es : List Event) (st : ClientState) (id : Nat),
      id < st.msgIdCounter → lookupA st.pending id = none →
      settlementsFor id (run st es).settled = []
  | [], _, _, _, _ => rfl
  | e :: es, st, id, hid, hno => by
    have hstep := step_no_resettle st e id hid hno
    have hcount : id < (step st e).state.msgIdCounter := by
      rcases step_alloc st e with ⟨_, hc⟩ | ⟨_, hc⟩ <;> omega
    have hrec := run_no_resettle es (step st e).state id hcount hstep.2
    show settlementsFor id ((step st e).settled ++ (run (step st e).state es).settled) = []
    rw [settlementsFor_append, hstep.1, hrec]
    rfl

theorem nodup_keys_append {α : Type} (l : List (Nat × α)) (c : Nat) (v : α)
    (hnd : (l.map Prod.fst).Nodup) (hlt : ∀ k ∈ l.map Prod.fst, k < c) :
    ((l ++ [(c, v)]).map Prod.fst).Nodup := by
  rw [List.map_append, List.nodup_append]
  refine ⟨hnd, List.nodup_singleton c, ?_⟩
  intro a ha hb
  simp at hb
  subst hb
  exact absurd (hlt _ ha) (lt_irrefl _)

theorem bound_keys_append {α : Type} (l : List (Nat × α)) (c : Nat) (v : α)
    (hb : ∀ j ∈ l.map Prod.fst, j < c) :
    ∀ j ∈ (l ++ [(c, v)]).map Prod.fst, j < c + 1 := by
  intro j hj
  rw [List.map_append] at hj
  rcases List.mem_append.mp hj with h | h
  · have := hb j h
    omega
  · simp at h
    omega

theorem nodup_keys_eraseKey {α : Type} (l : List (Nat × α)) (k : Nat)
    (hnd : (l.map Prod.fst).Nodup) : ((eraseKey l k).map Prod.fst).Nodup := by
  rw [keys_eraseKey]
  exact hnd.filter _

theorem bound_keys_eraseKey {α : Type} (l : List (Nat × α)) (k : Nat) (c : Nat)
    (hb : ∀ j ∈ l.map Prod.fst, j < c) :
    ∀ j ∈ (eraseKey l k).map Prod.fst, j < c := by
  intro j hj
  rw [keys_eraseKey] at hj
  exact hb j (List.mem_filter.mp hj).1

/-- A targeting event (matching response, own timeout, or closure) settles the
pending call with exactly its kind of settlement and removes the record. -/
theorem step_target_settles
    (st : ClientState) (e : Event) (g : Nat) (id : Nat) (entry : PendingEntry)
    (hws : st.wsRef = some g)
    (hnodup : (st.pending.map Prod.fst).Nodup)
    (hmem : lookupA st.pending id = some entry)
    (hgen : e.genOf = some g ∨ e.genOf = none)
    (ht : e.targetsId id = true) :
    settlementsFor id (step st e).settled = [Event.settleKindFor id e] ∧
    lookupA (step st e).state.pending id = none := by
  cases e with
  | callEv m now => simp [Event.targetsId] at ht
  | connectEv u => simp [Event.targetsId] at ht
  | openEv g2 now => simp [Event.targetsId] at ht
  | notifEv g2 n => simp [Event.targetsId] at ht
  | initTimeoutEv tid => simp [Event.targetsId] at ht
  | responseEv g2 rid isErr =>
    have hrid : rid = id := by simpa [Event.targetsId] using ht
    have hg2 : g2 = g := by simpa [Event.genOf] using hgen
    rw [hrid, hg2]
    show settlementsFor id (stepResponse st g id isErr).settled =
        [Event.settleKindFor id (Event.responseEv g id isErr)] ∧
      lookupA (stepResponse st g id isErr).state.pending id = none
    unfold stepResponse
    rw [if_pos hws, hmem]
    constructor
    · cases isErr
      · exact settlementsFor_singleton_eq id _ rfl
      · exact settlementsFor_singleton_eq id _ rfl
    · rw [settleStatus_pending]
      show lookupA (eraseKey st.pending id) id = none
      exact lookupA_eraseKey_self st.pending id
  | timeoutEv tid =>
    have htid : tid = id := by simpa [Event.targetsId] using ht
    rw [htid]
    show settlementsFor id (stepTimeout st id).settled =
        [Event.settleKindFor id (Event.timeoutEv id)] ∧
      lookupA (stepTimeout st id).state.pending id = none
    unfold stepTimeout
    rw [hmem]
    constructor
    · exact settlementsFor_singleton_eq id _ rfl
    · show lookupA (eraseKey st.pending id) id = none
      exact lookupA_eraseKey_self st.pending id
  | closeEv g2 code reason =>
    have hg2 : g2 = g := by simpa [Event.genOf] using hgen
    rw [hg2]
    show settlementsFor id (stepClose st g code reason).settled =
        [Event.settleKindFor id (Event.closeEv g code reason)] ∧
      lookupA (stepClose st g code reason).state.pending id = none
    unfold stepClose
    rw [if_pos hws]
    constructor
    · exact settlementsFor_map_closed_single id st.pending hnodup
        (mem_keys_of_lookupA _ _ _ hmem)
    · rw [closeStatusUpd_pending, rejectAllStatusUpd_pending]
      rfl

/-- A non-targeting event of the C1 alphabet settles nothing for the pending
call and preserves all dispatcher invariants. -/
theorem step_nontarget_preserves
    (st : ClientState) (e : Event) (g : Nat) (id : Nat) (entry : PendingEntry)
    (hws : st.wsRef = some g)
    (hnodup : (st.pending.map Prod.fst).Nodup)
    (hbound : ∀ k ∈ st.pending.map Prod.fst, k < st.msgIdCounter)
    (hmem : lookupA st.pending id = some entry)
    (hkind : e.c1Kind = true)
    (hgen : e.genOf = some g ∨ e.genOf = none)
    (ht : e.targetsId id = false) :
    settlementsFor id (step st e).settled = [] ∧
    (step st e).state.wsRef = some g ∧
    ((step st e).state.pending.map Prod.fst).Nodup ∧
    (∀ k ∈ (step st e).state.pending.map Prod.fst, k < (step st e).state.msgIdCounter) ∧
    lookupA (step st e).state.pending id = some entry := by
  have hidlt : id < st.msgIdCounter := hbound id (mem_keys_of_lookupA _ _ _ hmem)
  cases e with
  | connectEv u => simp [Event.c1Kind] at hkind
  | openEv g2 now => simp [Event.c1Kind] at hkind
  | notifEv g2 n => simp [Event.c1Kind] at hkind
  | initTimeoutEv tid => simp [Event.c1Kind] at hkind
  | closeEv g2 code reason => simp [Event.targetsId] at ht
  | callEv m now =>
    show settlementsFor id (stepCall st m now).settled = [] ∧
      (stepCall st m now).state.wsRef = some g ∧
      ((stepCall st m now).state.pending.map Prod.fst).Nodup ∧
      (∀ k ∈ (stepCall st m now).state.pending.map Prod.fst,
        k < (stepCall st m now).state.msgIdCounter) ∧
      lookupA (stepCall st m now).state.pending id = some entry
    unfold stepCall
    split
    · refine ⟨rfl, hws, ?_, ?_, ?_⟩
      · exact nodup_keys_append st.pending st.msgIdCounter _ hnodup hbound
      · exact bound_keys_append st.pending st.msgIdCounter _ hbound
      · show lookupA (st.pending ++ [(st.msgIdCounter, ⟨m, now, .ordinary⟩)]) id = some entry
        rw [lookupA_append_ne st.pending st.msgIdCounter _ id (by omega)]
        exact hmem
    · refine ⟨?_, hws, hnodup, ?_, hmem⟩
      · refine settlementsFor_singleton_ne id _ ?_
        show st.msgIdCounter ≠ id
        omega
      · exact fun k hk => Nat.lt_succ_of_lt (hbound k hk)
  | responseEv g2 rid isErr =>
    have hrid : rid ≠ id := by simpa [Event.targetsId] using ht
    have hg2 : g2 = g := by simpa [Event.genOf] using hgen
    rw [hg2]
    show settlementsFor id (stepResponse st g rid isErr).settled = [] ∧
      (stepResponse st g rid isErr).state.wsRef = some g ∧
      ((stepResponse st g rid isErr).state.pending.map Prod.fst).Nodup ∧
      (∀ k ∈ (stepResponse st g rid isErr).state.pending.map Prod.fst,
        k < (stepResponse st g rid isErr).state.msgIdCounter) ∧
      lookupA (stepResponse st g rid isErr).state.pending id = some entry
    unfold stepResponse
    rw [if_pos hws]
    split
    · refine ⟨?_, ?_, ?_, ?_, ?_⟩
      · refine settlementsFor_singleton_ne id _ ?_
        cases isErr <;> simpa [Settlement.idOf] using hrid
      · rw [settleStatus_wsRef]
        exact hws
      · rw [settleStatus_pending]
        exact nodup_keys_eraseKey st.pending rid hnodup
      · rw [settleStatus_pending, settleStatus_msgIdCounter]
        exact bound_keys_eraseKey st.pending rid _ hbound
      · rw [settleStatus_pending]
        show lookupA (eraseKey st.pending rid) id = some entry
        rw [lookupA_eraseKey_ne st.pending rid id (fun hc => hrid hc.symm)]
        exact hmem
    · exact ⟨rfl, hws, hnodup, hbound, hmem⟩
  | timeoutEv tid =>
    have htid : tid ≠ id := by simpa [Event.targetsId] using ht
    show settlementsFor id (stepTimeout st tid).settled = [] ∧
      (stepTimeout st tid).state.wsRef = some g ∧
      ((stepTimeout st tid).state.pending.map Prod.fst).Nodup ∧
      (∀ k ∈ (stepTimeout st tid).state.pending.map Prod.fst,
        k < (stepTimeout st tid).state.msgIdCounter) ∧
      lookupA (stepTimeout st tid).state.pending id = some entry
    unfold stepTimeout
    split
    · refine ⟨?_, hws, ?_, ?_, ?_⟩
      · refine settlementsFor_singleton_ne id _ ?_
        simpa [Settlement.idOf] using htid
      · exact nodup_keys_eraseKey st.pending tid hnodup
      · exact bound_keys_eraseKey st.pending tid _ hbound
      · show lookupA (eraseKey st.pending tid) id = some entry
        rw [lookupA_eraseKey_ne st.pending tid id (fun hc => htid hc.symm)]
        exact hmem
    · exact ⟨rfl, hws, hnodup, hbound, hmem⟩

/-- C1: for every sequence of call invocations interleaved with inbound
responses, timeout firings and connection closures (the events of the single
connection g, in arrival order), a registered pending call settles exactly
once: its settlements over the whole run are exactly one, and that settlement
is the one produced by whichever targeting event (matching response, own
timeout, or closure) arrives first; later events of the other kinds never
settle it again. -/
theorem c1_call_settles_exactly_once (g : Nat) (id : Nat) :
    ∀ (es : List Event) (st : ClientState) (entry : PendingEntry),
      st.wsRef = some g →
      (st.pending.map Prod.fst).Nodup →
      (∀ k ∈ st.pending.map Prod.fst, k < st.msgIdCounter) →
      lookupA st.pending id = some entry →
      (∀ e ∈ es, e.c1Kind = true) →
      (∀ e ∈ es, e.genOf = some g ∨ e.genOf = none) →
      (∃ e ∈ es, e.targetsId id = true) →
      ∃ e0, es.find? (Event.targetsId id) = some e0 ∧
        settlementsFor id (run st es).settled = [Event.settleKindFor id e0]
  | [], st, entry, _, _, _, _, _, _, htarget => by simp at htarget
  | e :: es, st, entry, hws, hnodup, hbound, hmem, hkinds, hgen, htarget => by
    by_cases ht : e.targetsId id = true
    · refine ⟨e, List.find?_cons_of_pos _ ht, ?_⟩
      have hstep := step_target_settles st e g id entry hws hnodup hmem
        (hgen e (List.mem_cons_self _ _)) ht
      have hcount : id < (step st e).state.msgIdCounter := by
        have hidlt : id < st.msgIdCounter := hbound id (mem_keys_of_lookupA _ _ _ hmem)
        rcases step_alloc st e with ⟨_, hc⟩ | ⟨_, hc⟩ <;> omega
      have hrest := run_no_resettle es (step st e).state id hcount hstep.2
      show settlementsFor id ((step st e).settled ++ (run (step st e).state es).settled) = _
      rw [settlementsFor_append, hstep.1, hrest, List.append_nil]
    · have htf : e.targetsId id = false := by
        revert ht
        cases e.targetsId id <;> simp
      have hstep := step_nontarget_preserves st e g id entry hws hnodup hbound hmem
        (hkinds e (List.mem_cons_self _ _)) (hgen e (List.mem_cons_self _ _)) htf
      have htarget2 : ∃ e2 ∈ es, e2.targetsId id = true := by
        rcases htarget with ⟨e2, he2, ht2⟩
        rcases List.mem_cons.mp he2 with h | h
        · rw [h] at ht2
          exact absurd ht2 ht
        · exact ⟨e2, h, ht2⟩
      obtain ⟨e0, hfind, hsettle⟩ := c1_call_settles_exactly_once g id es (step st e).state
        entry hstep.2.1 hstep.2.2.1 hstep.2.2.2.1 hstep.2.2.2.2
        (fun e2 h2 => hkinds e2 (List.mem_cons_of_mem _ h2))
        (fun e2 h2 => hgen e2 (List.mem_cons_of_mem _ h2)) htarget2
      refine ⟨e0, ?_, ?_⟩
      · rw [List.find?_cons_of_neg _ (by simp [htf])]
        exact hfind
      · show settlementsFor id ((step st e).settled ++ (run (step st e).state es).settled) = _
        rw [settlementsFor_append, hstep.1, hsettle, List.nil_append]

/-- A connected state (socket generation 0) with two outstanding calls. -/
def stC1 : ClientState :=
  { url := "ws://a", status := .connected, lastError := none, sessions := [],
    wsRef := some 0, wsNextGen := 1, sockets := [(0, ⟨"ws://a", .opened⟩)],
    msgIdCounter := 3,
    pending := [(1, ⟨"thread/start", 10, .ordinary⟩), (2, ⟨"turn/start", 11, .ordinary⟩)] }

/-- C1 witness: in a trace where call 1 receives its response first and the
connection then closes, call 1 settles exactly once, by the response. -/
theorem c1_witness :
    ∃ e0, [Event.callEv "turn/interrupt" 12, Event.responseEv 0 1 false,
        Event.timeoutEv 1, Event.closeEv 0 1006 ""].find? (Event.targetsId 1) = some e0 ∧
      settlementsFor 1 (run stC1 [Event.callEv "turn/interrupt" 12, Event.responseEv 0 1 false,
        Event.timeoutEv 1, Event.closeEv 0 1006 ""]).settled = [Event.settleKindFor 1 e0] :=
  c1_call_settles_exactly_once 0 1
    [Event.callEv "turn/interrupt" 12, Event.responseEv 0 1 false,
      Event.timeoutEv 1, Event.closeEv 0 1006 ""]
    stC1 ⟨"thread/start", 10, .ordinary⟩ rfl (by decide) (by decide) rfl
    (by decide) (by decide) (by decide)
